import Mathlib

/-!
Verification development for the docsearch-mvp chat frontend.

This file gives a shallow embedding, in Lean 4, of the session store
(`StateManager`), the streaming socket client (`WebSocketClient`) and the
citation processor (`CitationHandler`) of the repository, and proves or
refutes the specification claims about them.

Conventions of the embedding:
- JavaScript `Date` values are modelled as natural-number instants
  (`JSTime.date`); a string landing where a `Date` is expected (as happens
  after a JSON round trip) is modelled by `JSTime.str`.
- JavaScript numbers occurring in citation scores and similarity thresholds
  are modelled as rationals (`Rat`).
- Nondeterministic inputs of the code (generated ids, clock readings) are
  passed to the Lean functions as explicit arguments.
- Methods that mutate `this` become functions from state to state; a method
  that also returns a value becomes a function returning a pair.
- Event emission (`emit`) has no effect on the stores modelled here (the
  listeners live outside the store), so it is dropped, except in the
  reconnection model where the emitted events are the observable output.
-/

/-- Role of a chat message, from `message.types.ts`. -/
inductive Role where
  | user
  | assistant
  | system
deriving DecidableEq, Repr

/-- Status of a chat message, from `message.types.ts`. -/
inductive Status where
  | sending
  | sent
  | streaming
  | completed
  | error
deriving DecidableEq, Repr

/-- A runtime value stored in a `Date`-typed field.  After a JSON round trip
such a field actually holds a string, which `JSTime.str` records. -/
inductive JSTime where
  | date (ms : Nat)
  | str (t : String)
deriving DecidableEq, Repr

/-- Citation record from `message.types.ts` / `citation.types.ts`.  The open
`metadata` map and `page_number` are not modelled (no claim depends on them). -/
structure Citation where
  id : String
  source_file_id : String
  source_file_url : String
  source_file_name : String
  content_snippet : String
  relevance_score : Option Rat
deriving DecidableEq, Repr

/-- Message record from `message.types.ts`.  The open `metadata` map is not
modelled (no claim depends on it). -/
structure Message where
  id : String
  role : Role
  content : String
  timestamp : JSTime
  status : Status
  isStreaming : Option Bool
  citations : Option (List Citation)
deriving DecidableEq, Repr

/-- Chat session record from `message.types.ts` (the optional `title` field is
not modelled; no claim depends on it). -/
structure ChatSession where
  id : String
  messages : List Message
  created_at : JSTime
  updated_at : JSTime
deriving DecidableEq, Repr

/-- Citation group from `citation.types.ts`, as built by
`CitationHandler.groupCitationsBySource`. -/
structure CitationGroup where
  source_file_id : String
  source_file_url : String
  source_file_name : String
  citations : List Citation
  total_chunks : Nat
deriving DecidableEq, Repr

namespace CitationHandler

/-- Splitter state machine for the JavaScript expression `text.split(/\s+/)`:
maximal whitespace runs are separators, and the (possibly empty) fragments
before the first separator, between separators, and after the last separator
are returned.  The first flag records whether we are inside a whitespace run;
the accumulator holds the current fragment reversed. -/
def splitWsGo : Bool → List Char → List Char → List String
  | false, [], cur => [String.mk cur.reverse]
  | true, [], _ => [""]
  | false, c :: rest, cur =>
    if c.isWhitespace then String.mk cur.reverse :: splitWsGo true rest []
    else splitWsGo false rest (c :: cur)
  | true, c :: rest, _ =>
    if c.isWhitespace then splitWsGo true rest []
    else splitWsGo false rest [c]

/-- Model of `text.split(/\s+/)` from `calculateContentSimilarity`. -/
def jsSplitWs (s : String) : List String :=
  splitWsGo false s.data []

/-- Mirrors `CitationHandler.calculateContentSimilarity`: word-set Jaccard
similarity of the two lowercased, whitespace-split texts.  The word sets are
never empty (splitting always yields at least one fragment), so the division
is never 0 / 0. -/
def calculateContentSimilarity (text1 text2 : String) : Rat :=
  let words1 := (jsSplitWs text1.toLower).toFinset
  let words2 := (jsSplitWs text2.toLower).toFinset
  ((words1 ∩ words2).card : Rat) / ((words1 ∪ words2).card : Rat)

/-- The `deduplicated.some existing => similarity > threshold` test of
`CitationHandler.deduplicateCitations`. -/
def isDuplicateAgainst (thr : Rat) (kept : List Citation) (c : Citation) : Bool :=
  kept.any fun existing =>
    decide (calculateContentSimilarity c.content_snippet existing.content_snippet > thr)

/-- Loop of `CitationHandler.deduplicateCitations`: the first list is the
`deduplicated` accumulator, the second the remaining input. -/
def dedupGo (thr : Rat) : List Citation → List Citation → List Citation
  | _, [] => []
  | kept, c :: cs =>
    if isDuplicateAgainst thr kept c then dedupGo thr kept cs
    else c :: dedupGo thr (kept ++ [c]) cs

/-- Mirrors `CitationHandler.deduplicateCitations(citations, similarityThreshold)`. -/
def deduplicateCitations (citations : List Citation) (similarityThreshold : Rat) :
    List Citation :=
  dedupGo similarityThreshold [] citations

/-- The `citation.relevance_score || 0` read used throughout the handler. -/
def relOf (c : Citation) : Rat := c.relevance_score.getD 0

/-- One `citations.forEach` step of `groupCitationsBySource`: look the source
key up in the insertion-ordered map (modelled as a list with distinct keys),
creating the group on a miss, then push the citation and bump `total_chunks`. -/
def addToGroups (groups : List CitationGroup) (c : Citation) : List CitationGroup :=
  if groups.any (fun g => decide (g.source_file_id = c.source_file_id)) then
    groups.map fun g =>
      if g.source_file_id = c.source_file_id then
        { g with citations := g.citations ++ [c], total_chunks := g.total_chunks + 1 }
      else g
  else
    groups ++ [{ source_file_id := c.source_file_id,
                 source_file_url := c.source_file_url,
                 source_file_name := c.source_file_name,
                 citations := [c], total_chunks := 1 }]

/-- The insertion-ordered `Map` of `groupCitationsBySource` after the
`forEach` pass. -/
def buildGroups (citations : List Citation) : List CitationGroup :=
  citations.foldl addToGroups []

/-- Comparator model: `a` may come before `b` when `f b ≤ f a`.  A JavaScript
`Array.prototype.sort` with comparator `(a, b) => f(b) - f(a)` is a stable
descending sort by `f`, which is exactly `List.insertionSort (relDesc f)`. -/
def relDesc (f : α → Rat) (a b : α) : Prop := f b ≤ f a

instance (f : α → Rat) : DecidableRel (relDesc f) := fun a b =>
  inferInstanceAs (Decidable (f b ≤ f a))

instance (f : α → Rat) : IsTotal α (relDesc f) :=
  ⟨fun a b => le_total (f b) (f a)⟩

instance (f : α → Rat) : IsTrans α (relDesc f) :=
  ⟨fun _ _ _ h1 h2 => le_trans h2 h1⟩

/-- Model of `Math.max(...scores)` over a nonempty score list (every group
holds at least one citation, so the empty case is unreachable). -/
def listMax : List Rat → Rat
  | [] => 0
  | x :: xs => xs.foldl max x

/-- The `Math.max(...a.citations.map(c => c.relevance_score || 0))` key used
to order the groups. -/
def maxRel (g : CitationGroup) : Rat := listMax (g.citations.map relOf)

/-- The per-group `group.citations.sort((a, b) => (b.relevance_score || 0) -
(a.relevance_score || 0))` pass. -/
def sortGroupCitations (g : CitationGroup) : CitationGroup :=
  { g with citations := List.insertionSort (relDesc relOf) g.citations }

/-- Mirrors `CitationHandler.groupCitationsBySource`: build the
insertion-ordered groups, sort each group's citations descending by score,
then sort the group array descending by each group's maximum score. -/
def groupCitationsBySource (citations : List Citation) : List CitationGroup :=
  List.insertionSort (relDesc maxRel) ((buildGroups citations).map sortGroupCitations)

/-- Accumulating first-seen order of a list of keys. -/
def firstSeenAux (acc : List String) : List String → List String
  | [] => acc
  | x :: xs => if x ∈ acc then firstSeenAux acc xs else firstSeenAux (acc ++ [x]) xs

/-- The distinct `source_file_id` values of the input in first-appearance
order (the spec's "first-seen source order"). -/
def firstSeenIds (citations : List Citation) : List String :=
  firstSeenAux [] (citations.map Citation.source_file_id)

end CitationHandler

namespace StateManager

/-- The mutable state of the `StateManager` singleton.  The listener registry
and the connection-state flag are omitted: no claim depends on them, and
listeners cannot change the store (handler exceptions are swallowed). -/
structure State where
  currentSession : Option ChatSession
deriving DecidableEq, Repr

/-- Mirrors `StateManager.initializeSession` / the session literal of
`createNewSession`: a fresh session with the generated id and the current
clock reading. -/
def initSession (sessionId : String) (now : Nat) : ChatSession :=
  { id := sessionId, messages := [], created_at := JSTime.date now,
    updated_at := JSTime.date now }

/-- The caller-supplied part of a message, `Omit<Message, 'id' | 'timestamp'>`. -/
structure NewMessage where
  role : Role
  content : String
  status : Status
  isStreaming : Option Bool := none
  citations : Option (List Citation) := none
deriving DecidableEq, Repr

/-- A `Partial<Message>` as actually passed to `updateMessage` by the code:
only `content`, `status`, `isStreaming` and `citations` are ever supplied. -/
structure MessageUpdate where
  content : Option String := none
  status : Option Status := none
  isStreaming : Option Bool := none
  citations : Option (List Citation) := none
deriving DecidableEq, Repr

/-- Object spread `{ ...m, ...u }`: a key present in the update overrides the
old field, an absent key leaves it. -/
def applyUpdate (m : Message) (u : MessageUpdate) : Message :=
  { m with
    content := u.content.getD m.content,
    status := u.status.getD m.status,
    isStreaming := match u.isStreaming with
      | none => m.isStreaming
      | some b => some b,
    citations := match u.citations with
      | none => m.citations
      | some cs => some cs }

/-- Mirrors `StateManager.addMessage`: auto-create a session if none exists,
append the completed message, stamp `updated_at`, return the full message.
The generated ids and the clock reading are explicit arguments. -/
def addMessage (s : State) (m : NewMessage) (freshSessionId msgId : String)
    (now : Nat) : State × Message :=
  let sess := match s.currentSession with
    | none => initSession freshSessionId now
    | some sess => sess
  let fullMessage : Message :=
    { id := msgId, role := m.role, content := m.content,
      timestamp := JSTime.date now, status := m.status,
      isStreaming := m.isStreaming, citations := m.citations }
  ({ currentSession := some
      { sess with messages := sess.messages ++ [fullMessage],
                  updated_at := JSTime.date now } },
   fullMessage)

/-- The `findIndex` + replace-at-index pair of `StateManager.updateMessage`:
replace the first message whose id matches, returning the new list and the
updated message, or `none` when the id is absent. -/
def updFirst (messageId : String) (u : MessageUpdate) :
    List Message → Option (List Message × Message)
  | [] => none
  | m :: rest =>
    if m.id = messageId then some (applyUpdate m u :: rest, applyUpdate m u)
    else (updFirst messageId u rest).map fun p => (m :: p.1, p.2)

/-- Mirrors `StateManager.updateMessage`.  Note that, unlike `addMessage`, it
does not touch `updated_at`. -/
def updateMessage (s : State) (messageId : String) (updates : MessageUpdate) :
    State × Option Message :=
  match s.currentSession with
  | none => (s, none)
  | some sess =>
    match updFirst messageId updates sess.messages with
    | none => (s, none)
    | some (msgs, updated) =>
      ({ currentSession := some { sess with messages := msgs } }, some updated)

/-- Value read by `StateManager.getMessages` (`currentSession?.messages || []`).
Aliasing of the returned array is modelled separately in `AliasModel`. -/
def getMessagesV (s : State) : List Message :=
  match s.currentSession with
  | none => []
  | some sess => sess.messages

/-- Mirrors `StateManager.getLastMessage`:
`messages.length > 0 ? messages[messages.length - 1] : null`. -/
def getLastMessage (s : State) : Option Message :=
  (getMessagesV s).getLast?

/-- Mirrors `StateManager.addCitationsToMessage` (delegates to
`updateMessage` with a `{ citations }` partial; the extra emit has no state
effect). -/
def addCitationsToMessage (s : State) (messageId : String)
    (citations : List Citation) : State :=
  (updateMessage s messageId { citations := some citations }).1

/-- Serialized message inside the `JSON.stringify` output of
`exportSession`: the `Date` timestamp has become a string. -/
structure SMessage where
  id : String
  role : Role
  content : String
  timestamp : String
  status : Status
  isStreaming : Option Bool
  citations : Option (List Citation)
deriving DecidableEq, Repr

/-- Serialized session document `{id, messages[], created_at, updated_at}`. -/
structure SSession where
  id : String
  messages : List SMessage
  created_at : String
  updated_at : String
deriving DecidableEq, Repr

/-- Abstract model of `Date.prototype.toJSON` (the ISO string of the
instant); injective, which is all the development relies on. -/
def dateToJSON (ms : Nat) : String := toString ms

/-- JSON serialization of a `Date`-typed field: a genuine `Date` becomes its
ISO string, a string stays itself. -/
def jsonOfTime : JSTime → String
  | JSTime.date ms => dateToJSON ms
  | JSTime.str t => t

/-- Abstract model of `new Date(string).getTime()`. -/
def jsNewDate (t : String) : Nat := t.toNat?.getD 0

/-- One message as it appears in the `JSON.stringify(this.currentSession)`
output of `exportSession`. -/
def serializeMessage (m : Message) : SMessage :=
  { id := m.id, role := m.role, content := m.content,
    timestamp := jsonOfTime m.timestamp, status := m.status,
    isStreaming := m.isStreaming, citations := m.citations }

/-- Mirrors `StateManager.exportSession` as the structured document the JSON
string denotes; `none` stands for the string `"null"` produced when no
session exists. -/
def exportSession (s : State) : Option SSession :=
  s.currentSession.map fun sess =>
    { id := sess.id, messages := sess.messages.map serializeMessage,
      created_at := jsonOfTime sess.created_at,
      updated_at := jsonOfTime sess.updated_at }

/-- A parsed message from an imported document: the spread `{...session}`
keeps the messages exactly as parsed, so the timestamp stays a string. -/
def importMessage (m : SMessage) : Message :=
  { id := m.id, role := m.role, content := m.content,
    timestamp := JSTime.str m.timestamp, status := m.status,
    isStreaming := m.isStreaming, citations := m.citations }

/-- Mirrors `StateManager.importSession`: validate that the parsed document is
non-null with a truthy `id` and an array `messages` (the array check always
holds for a parsed export), then commit, converting only the session-level
`created_at` / `updated_at` back into `Date`s.  Returns the new state and the
boolean result. -/
def importSession (s : State) (doc : Option SSession) : State × Bool :=
  match doc with
  | none => (s, false)
  | some d =>
    if d.id ≠ "" then
      ({ currentSession := some
          { id := d.id, messages := d.messages.map importMessage,
            created_at := JSTime.date (jsNewDate d.created_at),
            updated_at := JSTime.date (jsNewDate d.updated_at) } },
       true)
    else (s, false)

end StateManager

namespace WebSocketClient

open StateManager

/-- JavaScript truthiness of the optional string `data.content`: absent and
empty strings are falsy. -/
def jsTruthyStr : Option String → Bool
  | none => false
  | some t => !t.isEmpty

/-- Mirrors `WebSocketClient.handleMessageStart` (the `typing_start` frame):
add a fresh assistant message with `status: 'streaming'` and
`isStreaming: true`. -/
def handleMessageStart (s : State) (freshSessionId msgId : String) (now : Nat) :
    State :=
  (addMessage s
    { content := "", role := Role.assistant, status := Status.streaming,
      isStreaming := some true }
    freshSessionId msgId now).1

/-- Mirrors `WebSocketClient.handleMessageChunk` (the `message_delta` frame):
take the literal last message of the session; if it is an assistant message
with a truthy `isStreaming` flag, append `data.content` to it, otherwise do
nothing. -/
def handleMessageChunk (s : State) (dataContent : Option String) : State :=
  match getLastMessage s with
  | none => s
  | some lastMessage =>
    if lastMessage.role = Role.assistant ∧ lastMessage.isStreaming.getD false = true then
      (updateMessage s lastMessage.id
        { content := some (lastMessage.content ++ dataContent.getD ""),
          isStreaming := some true }).1
    else s

/-- Mirrors `WebSocketClient.handleMessageComplete` (the `message_complete`
frame): take the literal last message; if it is an assistant message, set
`isStreaming: false` and, only when `data.content` is truthy, overwrite the
content (`...(data.content && { content: data.content })`). -/
def handleMessageComplete (s : State) (dataContent : Option String) : State :=
  match getLastMessage s with
  | none => s
  | some lastMessage =>
    if lastMessage.role = Role.assistant then
      (updateMessage s lastMessage.id
        { isStreaming := some false,
          content := if jsTruthyStr dataContent then dataContent else none }).1
    else s

namespace Config

/-- The `WebSocketConfig` interface from `api.types.ts`: every numeric option
is optional. -/
structure WebSocketConfig where
  url : String
  reconnectAttempts : Option Nat := none
  maxReconnectAttempts : Option Nat := none
  reconnectInterval : Option Nat := none
  reconnectDelay : Option Nat := none
  pingInterval : Option Nat := none
  heartbeatInterval : Option Nat := none
deriving DecidableEq, Repr

/-- The `Required<WebSocketConfig>` held in `this.config`. -/
structure ClientConfig where
  url : String
  reconnectAttempts : Nat
  maxReconnectAttempts : Nat
  reconnectInterval : Nat
  reconnectDelay : Nat
  pingInterval : Nat
  heartbeatInterval : Nat
deriving DecidableEq, Repr

/-- JavaScript `value || default` on an optional number: absent values and
the falsy number 0 both yield the default. -/
def jsOrNat : Option Nat → Nat → Nat
  | none, d => d
  | some n, d => if n = 0 then d else n

/-- Mirrors the `WebSocketClient` constructor's `this.config = {...}`
defaulting block. -/
def mkClientConfig (config : WebSocketConfig) : ClientConfig :=
  { url := config.url,
    reconnectAttempts := jsOrNat config.reconnectAttempts 0,
    maxReconnectAttempts := jsOrNat config.maxReconnectAttempts 5,
    reconnectInterval := jsOrNat config.reconnectInterval 3000,
    reconnectDelay := jsOrNat config.reconnectDelay 1000,
    pingInterval := jsOrNat config.pingInterval 30000,
    heartbeatInterval := jsOrNat config.heartbeatInterval 25000 }

end Config

namespace Reconnect

/-- Phase of the underlying socket owned by the client: no live socket, an
open attempt in flight, or an established connection. -/
inductive Phase where
  | idle
  | connecting
  | opened
deriving DecidableEq, Repr

/-- The reconnection-relevant mutable fields of `WebSocketClient`. -/
structure WS where
  phase : Phase
  reconnectAttempts : Nat
  timerSet : Bool
  intentionallyClosed : Bool
deriving DecidableEq, Repr

/-- Event-loop occurrences driving the client: the two public calls, the
socket callbacks, and the reconnect timer firing. -/
inductive WEvent where
  | callerConnect
  | callerDisconnect
  | openOk
  | closeEv
  | timerFire
deriving DecidableEq, Repr

/-- Observable output of a step: emitted events plus the `connect()` calls
themselves (tagged by whether the caller or the reconnect timer issued them). -/
inductive WOut where
  | outConnected
  | outDisconnected
  | outMaxReached
  | outAutoConnect
  | outExplicitConnect
deriving DecidableEq, Repr

/-- One event-loop step of the reconnection state machine, transcribed from
`connect`, `disconnect`, the `onopen` / `onclose` handlers and
`scheduleReconnect`.  Events that cannot occur in the given state (a timer
firing with no timer set, a close with no live socket) are no-ops. -/
def step (cfg : Config.ClientConfig) (s : WS) : WEvent → WS × List WOut
  | WEvent.callerConnect =>
    ({ s with intentionallyClosed := false, phase := Phase.connecting },
     [WOut.outExplicitConnect])
  | WEvent.callerDisconnect =>
    ({ s with intentionallyClosed := true, timerSet := false,
              phase := Phase.idle }, [])
  | WEvent.openOk =>
    if s.phase = Phase.connecting then
      ({ s with phase := Phase.opened, reconnectAttempts := 0 },
       [WOut.outConnected])
    else (s, [])
  | WEvent.closeEv =>
    if s.phase = Phase.connecting ∨ s.phase = Phase.opened then
      let s1 := { s with phase := Phase.idle, timerSet := false }
      if s.intentionallyClosed then (s1, [WOut.outDisconnected])
      else if s1.reconnectAttempts ≥ cfg.maxReconnectAttempts then
        (s1, [WOut.outDisconnected, WOut.outMaxReached])
      else
        ({ s1 with reconnectAttempts := s1.reconnectAttempts + 1,
                   timerSet := true },
         [WOut.outDisconnected])
    else (s, [])
  | WEvent.timerFire =>
    if s.timerSet then
      let s1 := { s with timerSet := false }
      if s.intentionallyClosed then (s1, [])
      else ({ s1 with phase := Phase.connecting }, [WOut.outAutoConnect])
    else (s, [])

/-- Run a sequence of event-loop occurrences, collecting all outputs. -/
def run (cfg : Config.ClientConfig) (s : WS) : List WEvent → WS × List WOut
  | [] => (s, [])
  | e :: es =>
    let p := step cfg s e
    let q := run cfg p.1 es
    (q.1, p.2 ++ q.2)

/-- A client that has given up: no live socket and no pending reconnect
timer, so nothing can wake it except an explicit `connect()`. -/
def GaveUp (s : WS) : Prop :=
  s.phase = Phase.idle ∧ s.timerSet = false

end Reconnect

end WebSocketClient

namespace AliasModel

/-- A miniature object heap for the aliasing question of `getMessages`:
JavaScript arrays live in a heap of message lists and are denoted by their
index. -/
structure SessionObj where
  id : String
  messagesRef : Nat
deriving DecidableEq, Repr

/-- Store state with the message array held by reference. -/
structure AState where
  heap : List (List Message)
  currentSession : Option SessionObj
deriving DecidableEq, Repr

/-- Mirrors `StateManager.getMessages` at the reference level:
`return this.currentSession?.messages || []` hands back the session's live
array reference; only when no session exists does `|| []` allocate a fresh
empty array. -/
def getMessages (s : AState) : AState × Nat :=
  match s.currentSession with
  | some sess => (s, sess.messagesRef)
  | none => ({ s with heap := s.heap ++ [[]] }, s.heap.length)

/-- A caller-side `arr.push(m)` on an array reference it received. -/
def callerPush (s : AState) (r : Nat) (m : Message) : AState :=
  { s with heap := s.heap.set r ((s.heap.getD r []) ++ [m]) }

/-- The store's internal message list, read through the session's own
reference. -/
def internalMessages (s : AState) : List Message :=
  match s.currentSession with
  | some sess => s.heap.getD sess.messagesRef []
  | none => []

end AliasModel

/-- The initial store state: the session created by the private constructor
at instant 0 with generated id `"s0"`. -/
def initState0 : StateManager.State :=
  { currentSession := some (StateManager.initSession "s0" 0) }

/-- The store state after the frames `typing_start`, then `message_delta`
with contents `"Hel"`, `"lo "`, `"world"` (ids and clock instants made
explicit). -/
def c1State : StateManager.State :=
  WebSocketClient.handleMessageChunk
    (WebSocketClient.handleMessageChunk
      (WebSocketClient.handleMessageChunk
        (WebSocketClient.handleMessageStart initState0 "sX" "m1" 1)
        (some "Hel"))
      (some "lo "))
    (some "world")

/-- The assistant message held by `c1State`. -/
def c1Last : Message :=
  { id := "m1", role := Role.assistant, content := "Hello world",
    timestamp := JSTime.date 1, status := Status.streaming,
    isStreaming := some true, citations := none }

/-- The session held by `c1State`. -/
def c1Sess : ChatSession :=
  { id := "s0", messages := [c1Last], created_at := JSTime.date 0,
    updated_at := JSTime.date 1 }

/-- A session whose first message is a still-streaming assistant message and
whose literal last message is a completed user message. -/
def c2BadState : StateManager.State :=
  { currentSession := some
      { id := "s0",
        messages :=
          [{ id := "m1", role := Role.assistant, content := "A",
             timestamp := JSTime.date 1, status := Status.streaming,
             isStreaming := some true, citations := none },
           { id := "m2", role := Role.user, content := "hi",
             timestamp := JSTime.date 2, status := Status.sent,
             isStreaming := none, citations := none }],
        created_at := JSTime.date 0, updated_at := JSTime.date 2 } }

/-- A session whose last message is a streaming assistant message. -/
def c2GoodState : StateManager.State :=
  { currentSession := some
      { id := "s0",
        messages :=
          [{ id := "m1", role := Role.assistant, content := "A",
             timestamp := JSTime.date 1, status := Status.streaming,
             isStreaming := some true, citations := none }],
        created_at := JSTime.date 0, updated_at := JSTime.date 1 } }

/-- Repeated `typing_start` handling: the state after `n` consecutive
`typing_start` frames on a fresh session (generated ids and instants made
explicit). -/
def iterTypingStart : Nat → StateManager.State
  | 0 => initState0
  | n + 1 =>
    WebSocketClient.handleMessageStart (iterTypingStart n)
      ("sF" ++ toString n) ("m" ++ toString n) (n + 1)

/-- Number of messages of the session currently in status `streaming`. -/
def countStreaming (s : StateManager.State) : Nat :=
  ((StateManager.getMessagesV s).filter
    (fun m => decide (m.status = Status.streaming))).length

/-- A store state for the aliasing counterexample: one session whose message
array (holding one assistant message) lives at heap address 0. -/
def c4State : AliasModel.AState :=
  { heap := [[{ id := "m1", role := Role.assistant, content := "A",
                timestamp := JSTime.date 1, status := Status.completed,
                isStreaming := some false, citations := none }]],
    currentSession := some { id := "s0", messagesRef := 0 } }

/-- A message a caller pushes onto the array returned by `getMessages()`. -/
def c4Pushed : Message :=
  { id := "evil", role := Role.user, content := "out of band",
    timestamp := JSTime.date 9, status := Status.sent,
    isStreaming := none, citations := none }

/-- A one-message session for the round-trip claims. -/
def c5Sess : ChatSession :=
  { id := "s5",
    messages := [{ id := "m1", role := Role.user, content := "q",
                   timestamp := JSTime.date 7, status := Status.sent,
                   isStreaming := none, citations := none }],
    created_at := JSTime.date 0, updated_at := JSTime.date 7 }

/-- The store holding `c5Sess`. -/
def c5State : StateManager.State :=
  { currentSession := some c5Sess }

/-- A session with one message, last touched at instant 5. -/
def c6State : StateManager.State :=
  { currentSession := some
      { id := "s6",
        messages := [{ id := "m1", role := Role.assistant, content := "a",
                       timestamp := JSTime.date 3, status := Status.completed,
                       isStreaming := some false, citations := none }],
        created_at := JSTime.date 0, updated_at := JSTime.date 5 } }

/-- The configuration of the reconnect witness: `maxReconnectAttempts = 3`. -/
def c7Cfg : WebSocketClient.Config.ClientConfig :=
  { url := "ws://localhost:8000/ws/s0", reconnectAttempts := 0,
    maxReconnectAttempts := 3, reconnectInterval := 3000,
    reconnectDelay := 1000, pingInterval := 30000,
    heartbeatInterval := 25000 }

/-- The client just before the final failure: the third and last retry is in
flight and the retry counter has reached the maximum. -/
def c7S : WebSocketClient.Reconnect.WS :=
  { phase := WebSocketClient.Reconnect.Phase.connecting,
    reconnectAttempts := 3, timerSet := false,
    intentionallyClosed := false }

/-- First input citation of the grouping counterexample: source `"A"`,
low relevance. -/
def c8A : Citation :=
  { id := "c1", source_file_id := "A", source_file_url := "uA",
    source_file_name := "nA", content_snippet := "alpha",
    relevance_score := some 0 }

/-- Second input citation of the grouping counterexample: source `"B"`,
high relevance. -/
def c8B : Citation :=
  { id := "c2", source_file_id := "B", source_file_url := "uB",
    source_file_name := "nB", content_snippet := "beta",
    relevance_score := some 1 }

/-- Keys of a group list, in order. -/
def keysOf (gs : List CitationGroup) : List String :=
  gs.map CitationGroup.source_file_id

/-- Invariant of the `forEach` pass of `groupCitationsBySource`, relative to
the prefix of the input already processed: the keys are the processed
sources in first-seen order, and each group holds exactly the processed
citations of its source, in input order, with `total_chunks` tracking the
count. -/
def GroupsInv (gs : List CitationGroup) (processed : List Citation) : Prop :=
  keysOf gs =
    CitationHandler.firstSeenAux [] (processed.map Citation.source_file_id) ∧
  ∀ g ∈ gs,
    g.citations =
      processed.filter (fun c => decide (c.source_file_id = g.source_file_id)) ∧
    g.total_chunks = g.citations.length

section DedupProofs

open CitationHandler

lemma dedupGo_sublist (thr : Rat) :
    ∀ (l kept : List Citation), (dedupGo thr kept l).Sublist l := by
  intro l
  induction l with
  | nil => intro kept; simp [dedupGo]
  | cons c cs ih =>
    intro kept
    by_cases h : isDuplicateAgainst thr kept c
    · simpa [dedupGo, h] using (ih kept).cons c
    · simpa [dedupGo, h] using (ih (kept ++ [c])).cons₂ c

lemma dedupGo_idem (thr : Rat) :
    ∀ (l kept : List Citation),
      dedupGo thr kept (dedupGo thr kept l) = dedupGo thr kept l := by
  intro l
  induction l with
  | nil => intro kept; simp [dedupGo]
  | cons c cs ih =>
    intro kept
    by_cases h : isDuplicateAgainst thr kept c
    · simp [dedupGo, h, ih kept]
    · simp [dedupGo, h, ih (kept ++ [c])]

end DedupProofs

/-- C9: de-duplication is idempotent — for every citation array and every
similarity threshold, running `deduplicateCitations` on its own output
returns that output unchanged — and the surviving citations form a sublist
of the input, i.e. they appear in their original input order. -/
theorem c9_dedup_idempotent_and_order (citations : List Citation) (thr : Rat) :
    CitationHandler.deduplicateCitations
        (CitationHandler.deduplicateCitations citations thr) thr =
      CitationHandler.deduplicateCitations citations thr ∧
    (CitationHandler.deduplicateCitations citations thr).Sublist citations :=
  ⟨dedupGo_idem thr citations [], dedupGo_sublist thr citations []⟩

section GroupingProofs

open CitationHandler

lemma firstSeenAux_append (l : List String) :
    ∀ (acc : List String) (x : String),
      firstSeenAux acc (l ++ [x]) =
        if x ∈ firstSeenAux acc l then firstSeenAux acc l
        else firstSeenAux acc l ++ [x] := by
  induction l with
  | nil => intro acc x; simp [firstSeenAux]
  | cons y ys ih =>
    intro acc x
    by_cases h : y ∈ acc
    · simp [firstSeenAux, h, ih]
    · simp [firstSeenAux, h, ih]

lemma mem_firstSeenAux (l : List String) :
    ∀ (acc : List String) (x : String),
      x ∈ firstSeenAux acc l ↔ x ∈ acc ∨ x ∈ l := by
  induction l with
  | nil => intro acc x; simp [firstSeenAux]
  | cons y ys ih =>
    intro acc x
    by_cases h : y ∈ acc
    · rw [show firstSeenAux acc (y :: ys) = firstSeenAux acc ys from by
        simp [firstSeenAux, h]]
      rw [ih]
      simp only [List.mem_cons]
      constructor
      · rintro (hx | hx)
        · exact Or.inl hx
        · exact Or.inr (Or.inr hx)
      · rintro (hx | rfl | hx)
        · exact Or.inl hx
        · exact Or.inl h
        · exact Or.inr hx
    · rw [show firstSeenAux acc (y :: ys) = firstSeenAux (acc ++ [y]) ys from by
        simp [firstSeenAux, h]]
      rw [ih]
      simp only [List.mem_append, List.mem_cons, List.mem_singleton]
      tauto

lemma addToGroups_inv (gs : List CitationGroup) (processed : List Citation)
    (c : Citation) (h : GroupsInv gs processed) :
    GroupsInv (addToGroups gs c) (processed ++ [c]) := by
  obtain ⟨hkeys, hmem⟩ := h
  have hany :
      (gs.any (fun g => decide (g.source_file_id = c.source_file_id)) = true) ↔
        c.source_file_id ∈ keysOf gs := by
    simp only [List.any_eq_true, decide_eq_true_eq, keysOf, List.mem_map]
  have hfsnew :
      firstSeenAux [] ((processed ++ [c]).map Citation.source_file_id) =
        if c.source_file_id ∈ keysOf gs then keysOf gs
        else keysOf gs ++ [c.source_file_id] := by
    rw [List.map_append]
    simp only [List.map_cons, List.map_nil]
    rw [firstSeenAux_append, ← hkeys]
  by_cases hc : c.source_file_id ∈ keysOf gs
  · have hcond := hany.mpr hc
    constructor
    · rw [show addToGroups gs c = gs.map (fun g =>
          if g.source_file_id = c.source_file_id then
            { g with citations := g.citations ++ [c],
                     total_chunks := g.total_chunks + 1 }
          else g) from by simp [addToGroups, hcond]]
      rw [hfsnew, if_pos hc]
      simp only [keysOf, List.map_map]
      apply List.map_congr_left
      intro g _
      by_cases hg : g.source_file_id = c.source_file_id <;> simp [hg]
    · intro g' hg'
      rw [show addToGroups gs c = gs.map (fun g =>
          if g.source_file_id = c.source_file_id then
            { g with citations := g.citations ++ [c],
                     total_chunks := g.total_chunks + 1 }
          else g) from by simp [addToGroups, hcond]] at hg'
      obtain ⟨g, hg, rfl⟩ := List.mem_map.mp hg'
      obtain ⟨hcit, htot⟩ := hmem g hg
      by_cases hq : g.source_file_id = c.source_file_id
      · simp only [if_pos hq]
        constructor
        · rw [List.filter_append]
          simp [hcit, hq]
        · simp [htot]
      · simp only [if_neg hq]
        constructor
        · rw [List.filter_append]
          have : c.source_file_id ≠ g.source_file_id := fun h => hq h.symm
          simp [hcit, this]
        · exact htot
  · have hcond : (gs.any
        (fun g => decide (g.source_file_id = c.source_file_id))) = false := by
      rw [← Bool.not_eq_true, hany]; exact hc
    have hnew : addToGroups gs c = gs ++
        [{ source_file_id := c.source_file_id,
           source_file_url := c.source_file_url,
           source_file_name := c.source_file_name,
           citations := [c], total_chunks := 1 }] := by
      simp [addToGroups, hcond]
    have hnotproc : c.source_file_id ∉ processed.map Citation.source_file_id := by
      intro hin
      exact hc (by rw [hkeys, mem_firstSeenAux]; exact Or.inr hin)
    constructor
    · rw [hnew, hfsnew, if_neg hc]
      simp [keysOf]
    · intro g' hg'
      rw [hnew, List.mem_append] at hg'
      rcases hg' with hg' | hg'
      · obtain ⟨hcit, htot⟩ := hmem g' hg'
        have hne : c.source_file_id ≠ g'.source_file_id := by
          intro heq
          exact hc (heq ▸ List.mem_map.mpr ⟨g', hg', rfl⟩)
        constructor
        · rw [List.filter_append]
          simp [hcit, hne]
        · exact htot
      · rw [List.mem_singleton] at hg'
        subst hg'
        constructor
        · rw [List.filter_append]
          have hfilnil :
              processed.filter
                (fun c' => decide (c'.source_file_id = c.source_file_id)) = [] := by
            rw [List.filter_eq_nil_iff]
            intro c' hc'
            simp only [decide_eq_true_eq]
            intro heq
            exact hnotproc (heq ▸ List.mem_map.mpr ⟨c', hc', rfl⟩)
          simp [hfilnil]
        · rfl

lemma foldl_addToGroups_inv :
    ∀ (rest processed : List Citation) (gs : List CitationGroup),
      GroupsInv gs processed →
      GroupsInv (rest.foldl addToGroups gs) (processed ++ rest) := by
  intro rest
  induction rest with
  | nil => intro processed gs h; simpa using h
  | cons c cs ih =>
    intro processed gs h
    have h1 := addToGroups_inv gs processed c h
    have h2 := ih (processed ++ [c]) (addToGroups gs c) h1
    simpa [List.append_assoc] using h2

lemma buildGroups_inv (citations : List Citation) :
    GroupsInv (buildGroups citations) citations := by
  have hnil : GroupsInv [] [] := by
    constructor
    · simp [keysOf, firstSeenAux]
    · intro g hg; simp at hg
  simpa [buildGroups] using foldl_addToGroups_inv citations [] [] hnil

end GroupingProofs

/-- C8 (amended): grouping by `source_file_id` returns one group per distinct
source; the groups come out sorted descending by the maximum
`relevance_score` within each group (absent scores counting as 0) — not in
first-seen source order — while the group keys are exactly the first-seen
distinct sources; within each group the citations are that source's input
citations sorted descending by `relevance_score` (absent treated as 0), and
`total_chunks` counts them. -/
theorem c8_grouping_amended (citations : List Citation) :
    List.Sorted (CitationHandler.relDesc CitationHandler.maxRel)
      (CitationHandler.groupCitationsBySource citations) ∧
    List.Perm
      ((CitationHandler.groupCitationsBySource citations).map
        CitationGroup.source_file_id)
      (CitationHandler.firstSeenIds citations) ∧
    ∀ g ∈ CitationHandler.groupCitationsBySource citations,
      List.Sorted (CitationHandler.relDesc CitationHandler.relOf) g.citations ∧
      List.Perm g.citations
        (citations.filter
          (fun c => decide (c.source_file_id = g.source_file_id))) ∧
      g.total_chunks = g.citations.length := by
  obtain ⟨hkeys, hmem⟩ := buildGroups_inv citations
  have hperm :
      List.Perm (CitationHandler.groupCitationsBySource citations)
        ((CitationHandler.buildGroups citations).map
          CitationHandler.sortGroupCitations) :=
    List.perm_insertionSort _ _
  refine ⟨List.sorted_insertionSort _ _, ?_, ?_⟩
  · have h1 := hperm.map CitationGroup.source_file_id
    have h2 :
        ((CitationHandler.buildGroups citations).map
          CitationHandler.sortGroupCitations).map CitationGroup.source_file_id =
          keysOf (CitationHandler.buildGroups citations) := by
      simp [keysOf, List.map_map, CitationHandler.sortGroupCitations]
    rw [h2, hkeys] at h1
    exact h1
  · intro g hg
    have hg2 := hperm.subset hg
    obtain ⟨g0, hg0, rfl⟩ := List.mem_map.mp hg2
    obtain ⟨hcit, htot⟩ := hmem g0 hg0
    refine ⟨List.sorted_insertionSort _ _, ?_, ?_⟩
    · have hp : List.Perm
          (CitationHandler.sortGroupCitations g0).citations g0.citations :=
        List.perm_insertionSort _ _
      rw [hcit] at hp
      exact hp
    · have hlen :
          (CitationHandler.sortGroupCitations g0).citations.length =
            g0.citations.length :=
        (List.perm_insertionSort _ _).length_eq
    -- total_chunks is untouched by the per-group sort
      calc (CitationHandler.sortGroupCitations g0).total_chunks
          = g0.total_chunks := rfl
        _ = g0.citations.length := htot
        _ = (CitationHandler.sortGroupCitations g0).citations.length :=
            hlen.symm

section StoreProofs

open StateManager WebSocketClient

lemma getLast?_decomp : ∀ {l : List Message} {a : Message},
    l.getLast? = some a → l = l.dropLast ++ [a] := by
  intro l
  induction l with
  | nil => intro a h; simp at h
  | cons x xs ih =>
    intro a h
    cases xs with
    | nil =>
      simp only [List.getLast?_singleton, Option.some.injEq] at h
      subst h
      simp
    | cons y ys =>
      rw [List.getLast?_cons_cons] at h
      have h2 := ih h
      calc x :: y :: ys = x :: ((y :: ys).dropLast ++ [a]) := by rw [← h2]
        _ = (x :: y :: ys).dropLast ++ [a] := by simp

lemma updFirst_concat (u : MessageUpdate) (last : Message) :
    ∀ (init : List Message), (∀ m ∈ init, m.id ≠ last.id) →
      updFirst last.id u (init ++ [last]) =
        some (init ++ [applyUpdate last u], applyUpdate last u) := by
  intro init
  induction init with
  | nil => intro _; simp [updFirst]
  | cons m ms ih =>
    intro h
    have hm : m.id ≠ last.id := h m (List.mem_cons_self m ms)
    have hrest := ih (fun m' hm' => h m' (List.mem_cons_of_mem m hm'))
    simp [updFirst, hm, hrest]

/-- Updating the last message of a session whose message ids are distinct:
`updateMessage` replaces exactly that message. -/
lemma updateMessage_last (s : State) (sess : ChatSession) (last : Message)
    (u : MessageUpdate) (hs : s.currentSession = some sess)
    (hlast : sess.messages.getLast? = some last)
    (hids : (sess.messages.map Message.id).Nodup) :
    updateMessage s last.id u =
      ({ currentSession := some
          { sess with messages :=
              sess.messages.dropLast ++ [applyUpdate last u] } },
       some (applyUpdate last u)) := by
  have hdec := getLast?_decomp hlast
  have hfresh : ∀ m ∈ sess.messages.dropLast, m.id ≠ last.id := by
    intro m hm heq
    rw [hdec, List.map_append] at hids
    have hdisj := (List.nodup_append.mp hids).2.2
    exact hdisj (List.mem_map.mpr ⟨m, hm, rfl⟩) (by simp [heq])
  have h2 : updFirst last.id u sess.messages =
      some (sess.messages.dropLast ++ [applyUpdate last u], applyUpdate last u) := by
    conv_lhs => rw [hdec]
    exact updFirst_concat u last _ hfresh
  simp [updateMessage, hs, h2]

lemma getLastMessage_of_session (s : State) (sess : ChatSession)
    (hs : s.currentSession = some sess) :
    getLastMessage s = sess.messages.getLast? := by
  simp [getLastMessage, getMessagesV, hs]

lemma applyUpdate_complete (last : Message) (d : Option String) :
    applyUpdate last
        { isStreaming := some false,
          content := if jsTruthyStr d then d else none } =
      { last with isStreaming := some false,
                  content := if jsTruthyStr d then d.getD ""
                             else last.content } := by
  cases d with
  | none => simp [applyUpdate, jsTruthyStr]
  | some t =>
    by_cases ht : t.isEmpty <;> simp [applyUpdate, jsTruthyStr, ht]

lemma optGetDTrue (o : Option Bool) : o.getD false = true ↔ o = some true := by
  cases o <;> simp

end StoreProofs

/-- C1 (amended): after `typing_start` and any `message_delta` frames, a
`message_complete` frame sets the streaming-target assistant message's
`isStreaming` flag to `false` but leaves its `status` field unchanged (so a
streaming target keeps status `streaming`, never reaching `completed`); the
accumulated content is kept, and is overwritten exactly when the frame
supplies a truthy (non-empty) content value.  Stated for the literal last
message of a session with distinct message ids, which is how the client
resolves the target. -/
theorem c1_message_complete_amended (s : StateManager.State)
    (sess : ChatSession) (last : Message) (d : Option String)
    (hs : s.currentSession = some sess)
    (hlast : sess.messages.getLast? = some last)
    (hids : (sess.messages.map Message.id).Nodup)
    (hrole : last.role = Role.assistant) :
    (WebSocketClient.handleMessageComplete s d).currentSession =
      some { sess with messages := sess.messages.dropLast ++
        [{ last with isStreaming := some false,
                     content := if WebSocketClient.jsTruthyStr d then d.getD ""
                                else last.content }] } := by
  have hgl := getLastMessage_of_session s sess hs
  rw [hlast] at hgl
  rw [WebSocketClient.handleMessageComplete, hgl]
  simp only [if_pos hrole]
  rw [updateMessage_last s sess last _ hs hlast hids, applyUpdate_complete]

/-- C1 counterexample: in the claim's own scenario — `typing_start`, deltas
`"Hel"`, `"lo "`, `"world"`, then `message_complete` with no content — the
final assistant message does have content `"Hello world"`, but its status
field is still `streaming`, not `completed` (only `isStreaming` was
cleared). -/
theorem c1_message_complete_cex :
    (WebSocketClient.handleMessageComplete c1State none).currentSession =
      some { id := "s0",
             messages := [{ id := "m1", role := Role.assistant,
                            content := "Hello world",
                            timestamp := JSTime.date 1,
                            status := Status.streaming,
                            isStreaming := some false, citations := none }],
             created_at := JSTime.date 0, updated_at := JSTime.date 1 } ∧
    Status.streaming ≠ Status.completed :=
  ⟨by decide, by decide⟩

/-- C1 witness: the amended theorem applied to the concrete scenario state. -/
theorem c1_message_complete_witness :
    (c1State.currentSession = some c1Sess ∧
     c1Sess.messages.getLast? = some c1Last ∧
     (c1Sess.messages.map Message.id).Nodup ∧
     c1Last.role = Role.assistant) ∧
    (WebSocketClient.handleMessageComplete c1State none).currentSession =
      some { c1Sess with messages := c1Sess.messages.dropLast ++
        [{ c1Last with isStreaming := some false,
                       content := if WebSocketClient.jsTruthyStr none
                                  then (none : Option String).getD ""
                                  else c1Last.content }] } :=
  ⟨⟨by decide, by decide, by decide, by decide⟩,
   c1_message_complete_amended c1State c1Sess c1Last none (by decide)
     (by decide) (by decide) (by decide)⟩

/-- C2 (amended): a `message_delta` frame is resolved against the literal
last message of the session, not against the most recent assistant message
in streaming state: when the last message is an assistant message with a
truthy `isStreaming` flag, `data.content` is appended to it and no other
message or session field changes; in every other case — even when an earlier
assistant message is still streaming — the frame is dropped and the state is
left untouched. -/
theorem c2_message_delta_amended (s : StateManager.State)
    (sess : ChatSession) (last : Message) (d : Option String)
    (hs : s.currentSession = some sess)
    (hlast : sess.messages.getLast? = some last)
    (hids : (sess.messages.map Message.id).Nodup) :
    ((last.role = Role.assistant ∧ last.isStreaming = some true) →
      (WebSocketClient.handleMessageChunk s d).currentSession =
        some { sess with messages := sess.messages.dropLast ++
          [{ last with content := last.content ++ d.getD "",
                       isStreaming := some true }] }) ∧
    (¬ (last.role = Role.assistant ∧ last.isStreaming = some true) →
      WebSocketClient.handleMessageChunk s d = s) := by
  have hgl := getLastMessage_of_session s sess hs
  rw [hlast] at hgl
  constructor
  · rintro ⟨hrole, hstr⟩
    rw [WebSocketClient.handleMessageChunk, hgl]
    have hcond : last.role = Role.assistant ∧ last.isStreaming.getD false = true :=
      ⟨hrole, (optGetDTrue last.isStreaming).mpr hstr⟩
    simp only [if_pos hcond]
    rw [updateMessage_last s sess last _ hs hlast hids]
    rfl
  · intro hneg
    rw [WebSocketClient.handleMessageChunk, hgl]
    have hcond : ¬ (last.role = Role.assistant ∧ last.isStreaming.getD false = true) := by
      intro ⟨h1, h2⟩
      exact hneg ⟨h1, (optGetDTrue last.isStreaming).mp h2⟩
    simp only [if_neg hcond]

/-- C2 counterexample: the session still contains an assistant message with
status `streaming` (the claim's streaming target), yet a `message_delta`
frame leaves the whole state unchanged — the delta is lost — because the
literal last message is a user message. -/
theorem c2_message_delta_cex :
    WebSocketClient.handleMessageChunk c2BadState (some "x") = c2BadState ∧
    (StateManager.getMessagesV c2BadState).any
      (fun m => decide (m.role = Role.assistant ∧ m.status = Status.streaming))
      = true :=
  ⟨by decide, by decide⟩

/-- C2 witness: the amended theorem applied to a concrete state whose last
message is a streaming assistant message, with delta `"x"`. -/
theorem c2_message_delta_witness :
    (c2GoodState.currentSession = some
        { id := "s0",
          messages :=
            [{ id := "m1", role := Role.assistant, content := "A",
               timestamp := JSTime.date 1, status := Status.streaming,
               isStreaming := some true, citations := none }],
          created_at := JSTime.date 0, updated_at := JSTime.date 1 } ∧
     ({ id := "m1", role := Role.assistant, content := "A",
        timestamp := JSTime.date 1, status := Status.streaming,
        isStreaming := some true,
        citations := none } : Message).role = Role.assistant) ∧
    (WebSocketClient.handleMessageChunk c2GoodState (some "x")).currentSession =
      some { id := "s0",
             messages := [{ id := "m1", role := Role.assistant,
                            content := "Ax", timestamp := JSTime.date 1,
                            status := Status.streaming,
                            isStreaming := some true, citations := none }],
             created_at := JSTime.date 0, updated_at := JSTime.date 1 } := by
  constructor
  · exact ⟨by decide, by decide⟩
  · have h := (c2_message_delta_amended c2GoodState
      { id := "s0",
        messages :=
          [{ id := "m1", role := Role.assistant, content := "A",
             timestamp := JSTime.date 1, status := Status.streaming,
             isStreaming := some true, citations := none }],
        created_at := JSTime.date 0, updated_at := JSTime.date 1 }
      { id := "m1", role := Role.assistant, content := "A",
        timestamp := JSTime.date 1, status := Status.streaming,
        isStreaming := some true, citations := none }
      (some "x") (by decide) (by decide) (by decide)).1
      ⟨by decide, by decide⟩
    simpa using h

lemma getMessagesV_addMessage (s : StateManager.State)
    (m : StateManager.NewMessage) (fsid mid : String) (now : Nat) :
    StateManager.getMessagesV (StateManager.addMessage s m fsid mid now).1 =
      StateManager.getMessagesV s ++
        [{ id := mid, role := m.role, content := m.content,
           timestamp := JSTime.date now, status := m.status,
           isStreaming := m.isStreaming, citations := m.citations }] := by
  cases h : s.currentSession <;>
    simp [StateManager.addMessage, StateManager.getMessagesV,
      StateManager.initSession, h]

/-- C3 (amended): the store enforces no at-most-one-streaming invariant —
every `typing_start` frame adds one more message with status `streaming` and
no frame ever moves a message's status out of `streaming`, so after `n`
`typing_start` frames the session holds exactly `n` messages in status
`streaming` simultaneously. -/
theorem c3_streaming_invariant_amended (n : Nat) :
    countStreaming (iterTypingStart n) = n := by
  induction n with
  | zero => rfl
  | succ k ih =>
    rw [iterTypingStart, WebSocketClient.handleMessageStart, countStreaming,
      getMessagesV_addMessage, List.filter_append, List.length_append]
    rw [countStreaming] at ih
    rw [ih]
    rfl

/-- C3 counterexample: a state reachable by two inbound `typing_start`
frames holds two messages in status `streaming` at the same instant,
violating the claimed at-most-one-streaming invariant. -/
theorem c3_streaming_invariant_cex :
    countStreaming (iterTypingStart 2) = 2 ∧
    ¬ countStreaming (iterTypingStart 2) ≤ 1 :=
  ⟨by decide, by decide⟩

section AliasProofs

lemma getD_set_self : ∀ (l : List (List Message)) (r : Nat) (v : List Message),
    r < l.length → (l.set r v).getD r [] = v := by
  intro l
  induction l with
  | nil => intro r v h; simp at h
  | cons x xs ih =>
    intro r v h
    cases r with
    | zero => rfl
    | succ rr =>
      have hrr : rr < xs.length := by
        simpa [Nat.succ_lt_succ_iff] using h
      simpa [List.getD] using ih rr v hrr

end AliasProofs

/-- C4 (amended): `getMessages()` does not return a defensive copy — it hands
back the live internal array reference (`currentSession?.messages || []`), so
a caller-side mutation of the returned array (here: a push) changes the
Session Store's internal message list in place. -/
theorem c4_defensive_copy_amended (s : AliasModel.AState)
    (sess : AliasModel.SessionObj) (m : Message)
    (hs : s.currentSession = some sess)
    (hr : sess.messagesRef < s.heap.length) :
    (AliasModel.getMessages s).2 = sess.messagesRef ∧
    (AliasModel.getMessages s).1 = s ∧
    AliasModel.internalMessages
        (AliasModel.callerPush s (AliasModel.getMessages s).2 m) =
      AliasModel.internalMessages s ++ [m] := by
  refine ⟨by simp [AliasModel.getMessages, hs],
          by simp [AliasModel.getMessages, hs], ?_⟩
  simp only [AliasModel.getMessages, hs, AliasModel.callerPush,
    AliasModel.internalMessages]
  exact getD_set_self s.heap sess.messagesRef _ hr

/-- C4 counterexample: pushing onto the array returned by `getMessages()`
changes the store's internal state, so the claim that caller-side mutations
leave the Session Store unchanged is false. -/
theorem c4_defensive_copy_cex :
    AliasModel.internalMessages
        (AliasModel.callerPush c4State (AliasModel.getMessages c4State).2
          c4Pushed) ≠
      AliasModel.internalMessages c4State := by
  decide

/-- C4 witness: the amended theorem applied to the concrete one-message
store. -/
theorem c4_defensive_copy_witness :
    (c4State.currentSession = some { id := "s0", messagesRef := 0 } ∧
     (0 : Nat) < c4State.heap.length) ∧
    ((AliasModel.getMessages c4State).2 = 0 ∧
     (AliasModel.getMessages c4State).1 = c4State ∧
     AliasModel.internalMessages
         (AliasModel.callerPush c4State (AliasModel.getMessages c4State).2
           c4Pushed) =
       AliasModel.internalMessages c4State ++ [c4Pushed]) :=
  ⟨⟨by decide, by decide⟩,
   c4_defensive_copy_amended c4State { id := "s0", messagesRef := 0 } c4Pushed
     (by decide) (by decide)⟩

/-- C5 (amended): for a store holding a session with a truthy id,
`importSession(exportSession())` succeeds (returns `true`) and reproduces the
session id exactly, but the reproduced message list equals the original only
up to timestamps: each message comes back with its `timestamp` field holding
the JSON string serialization of the original `Date` instead of a `Date`, so
the lists are not equal whenever a message carries a `Date` timestamp. -/
theorem c5_roundtrip_amended (s : StateManager.State) (sess : ChatSession)
    (hs : s.currentSession = some sess) (hid : sess.id ≠ "") :
    (StateManager.importSession s (StateManager.exportSession s)).2 = true ∧
    (StateManager.importSession s
        (StateManager.exportSession s)).1.currentSession.map ChatSession.id =
      some sess.id ∧
    (StateManager.importSession s
        (StateManager.exportSession s)).1.currentSession.map
        ChatSession.messages =
      some (sess.messages.map fun m =>
        { m with timestamp := JSTime.str (StateManager.jsonOfTime m.timestamp) }) := by
  have hdoc : StateManager.exportSession s = some
      { id := sess.id,
        messages := sess.messages.map StateManager.serializeMessage,
        created_at := StateManager.jsonOfTime sess.created_at,
        updated_at := StateManager.jsonOfTime sess.updated_at } := by
    rw [StateManager.exportSession, hs]
    rfl
  rw [hdoc, StateManager.importSession]
  rw [if_pos hid]
  refine ⟨rfl, rfl, ?_⟩
  have hmap : List.map
      (StateManager.importMessage ∘ StateManager.serializeMessage)
      sess.messages =
    List.map (fun m =>
      { m with timestamp := JSTime.str (StateManager.jsonOfTime m.timestamp) })
      sess.messages := List.map_congr_left (fun m _ => rfl)
  simp only [Option.map_some', List.map_map, hmap]

/-- C5 counterexample: on a perfectly ordinary session (one user message with
a `Date` timestamp), the round trip succeeds but the reproduced message list
is not equal to the original — the message's timestamp came back as the
serialized string, not a `Date`. -/
theorem c5_roundtrip_cex :
    (StateManager.importSession c5State
        (StateManager.exportSession c5State)).2 = true ∧
    (StateManager.importSession c5State
        (StateManager.exportSession c5State)).1.currentSession.map
        ChatSession.messages ≠
      some (StateManager.getMessagesV c5State) :=
  ⟨by decide, by decide⟩

/-- C5 witness: the amended round-trip theorem applied to the concrete
one-message session. -/
theorem c5_roundtrip_witness :
    (c5State.currentSession = some c5Sess ∧ c5Sess.id ≠ "") ∧
    ((StateManager.importSession c5State
        (StateManager.exportSession c5State)).2 = true ∧
     (StateManager.importSession c5State
        (StateManager.exportSession c5State)).1.currentSession.map
        ChatSession.id = some c5Sess.id) :=
  ⟨⟨by decide, by decide⟩,
   ⟨(c5_roundtrip_amended c5State c5Sess (by decide) (by decide)).1,
    (c5_roundtrip_amended c5State c5Sess (by decide) (by decide)).2.1⟩⟩

section UpdatedAtProofs

open StateManager

lemma updatedAt_addMessage (s : State) (m : NewMessage) (fsid mid : String)
    (now : Nat) :
    (addMessage s m fsid mid now).1.currentSession.map ChatSession.updated_at =
      some (JSTime.date now) := by
  cases h : s.currentSession <;> simp [addMessage, initSession, h]

lemma updatedAt_updateMessage (s : State) (mid : String) (u : MessageUpdate) :
    (updateMessage s mid u).1.currentSession.map ChatSession.updated_at =
      s.currentSession.map ChatSession.updated_at := by
  cases h : s.currentSession with
  | none => simp [updateMessage, h]
  | some sess =>
    cases h2 : updFirst mid u sess.messages with
    | none => simp [updateMessage, h, h2]
    | some p => simp [updateMessage, h, h2]

lemma updatedAt_addCitations (s : State) (mid : String)
    (citations : List Citation) :
    (addCitationsToMessage s mid citations).currentSession.map
        ChatSession.updated_at =
      s.currentSession.map ChatSession.updated_at := by
  rw [addCitationsToMessage]
  exact updatedAt_updateMessage s mid _

end UpdatedAtProofs

/-- C6 (amended): only `addMessage` stamps the session's `updated_at` (with
the mutation instant); the other two message mutations — `updateMessage` and
`addCitationsToMessage` — leave `updated_at` exactly as it was, so not every
message mutation bumps the timestamp. -/
theorem c6_updated_at_amended :
    (∀ (s : StateManager.State) (m : StateManager.NewMessage)
        (fsid mid : String) (now : Nat),
      (StateManager.addMessage s m fsid mid now).1.currentSession.map
          ChatSession.updated_at = some (JSTime.date now)) ∧
    (∀ (s : StateManager.State) (mid : String)
        (u : StateManager.MessageUpdate),
      (StateManager.updateMessage s mid u).1.currentSession.map
          ChatSession.updated_at =
        s.currentSession.map ChatSession.updated_at) ∧
    (∀ (s : StateManager.State) (mid : String) (citations : List Citation),
      (StateManager.addCitationsToMessage s mid citations).currentSession.map
          ChatSession.updated_at =
        s.currentSession.map ChatSession.updated_at) :=
  ⟨updatedAt_addMessage, updatedAt_updateMessage, updatedAt_addCitations⟩

/-- C6 counterexample: a successful `updateMessage` call — a genuine message
mutation, the message list changes — returns the updated message yet leaves
the session's `updated_at` untouched, refuting "every message mutation bumps
`updated_at`". -/
theorem c6_updated_at_cex :
    (StateManager.updateMessage c6State "m1" { content := some "b" }).2.isSome
      = true ∧
    StateManager.getMessagesV
        (StateManager.updateMessage c6State "m1" { content := some "b" }).1 ≠
      StateManager.getMessagesV c6State ∧
    (StateManager.updateMessage c6State "m1"
        { content := some "b" }).1.currentSession.map ChatSession.updated_at =
      c6State.currentSession.map ChatSession.updated_at :=
  ⟨by decide, by decide, by decide⟩

section ReconnectProofs

open WebSocketClient.Config WebSocketClient.Reconnect

lemma step_of_gaveUp (cfg : ClientConfig) (s : WS) (e : WEvent)
    (h : GaveUp s) (he : e ≠ WEvent.callerConnect) :
    GaveUp (step cfg s e).1 ∧ (step cfg s e).2 = [] := by
  obtain ⟨h1, h2⟩ := h
  cases e with
  | callerConnect => exact absurd rfl he
  | callerDisconnect => simp [step, GaveUp]
  | openOk => simp [step, GaveUp, h1, h2]
  | closeEv => simp [step, GaveUp, h1, h2]
  | timerFire => simp [step, GaveUp, h1, h2]

lemma run_of_gaveUp (cfg : ClientConfig) :
    ∀ (evs : List WEvent) (s : WS), GaveUp s →
      (∀ e ∈ evs, e ≠ WEvent.callerConnect) → (run cfg s evs).2 = [] := by
  intro evs
  induction evs with
  | nil => intro s _ _; rfl
  | cons e es ih =>
    intro s h hn
    have he := hn e (List.mem_cons_self e es)
    have hst := step_of_gaveUp cfg s e h he
    have hrest := ih (step cfg s e).1 hst.1
      (fun e' he' => hn e' (List.mem_cons_of_mem e he'))
    simp [run, hst.2, hrest]

lemma step_maxReached (cfg : ClientConfig) (s : WS) (e : WEvent)
    (hm : WOut.outMaxReached ∈ (step cfg s e).2) :
    (step cfg s e).2 = [WOut.outDisconnected, WOut.outMaxReached] ∧
      GaveUp (step cfg s e).1 := by
  cases e with
  | callerConnect => simp [step] at hm
  | callerDisconnect => simp [step] at hm
  | openOk =>
    by_cases h : s.phase = Phase.connecting <;> simp [step, h] at hm
  | timerFire =>
    by_cases h : s.timerSet = true
    · by_cases h2 : s.intentionallyClosed = true <;> simp [step, h, h2] at hm
    · simp [step, h] at hm
  | closeEv =>
    by_cases h : s.phase = Phase.connecting ∨ s.phase = Phase.opened
    · by_cases h2 : s.intentionallyClosed = true
      · simp [step, h, h2] at hm
      · by_cases h3 : s.reconnectAttempts ≥ cfg.maxReconnectAttempts
        · constructor <;> simp [step, GaveUp, h, h2, h3]
        · simp [step, h, h2, h3] at hm
    · simp [step, h] at hm

end ReconnectProofs

/-- C7: whenever a step of the reconnection state machine emits
`maxReconnectAttemptsReached`, that step emits it exactly once (its output is
precisely `disconnected` followed by `maxReconnectAttemptsReached`), and from
the resulting state any further event sequence containing no explicit
`connect()` call produces no output at all — in particular no further
`maxReconnectAttemptsReached` event and no automatic `connect()` call ever
occurs until the caller invokes `connect()` explicitly. -/
theorem c7_max_reconnect_confirmed
    (cfg : WebSocketClient.Config.ClientConfig)
    (s : WebSocketClient.Reconnect.WS) (e : WebSocketClient.Reconnect.WEvent)
    (hm : WebSocketClient.Reconnect.WOut.outMaxReached ∈
      (WebSocketClient.Reconnect.step cfg s e).2) :
    (WebSocketClient.Reconnect.step cfg s e).2 =
      [WebSocketClient.Reconnect.WOut.outDisconnected,
       WebSocketClient.Reconnect.WOut.outMaxReached] ∧
    ∀ evs : List WebSocketClient.Reconnect.WEvent,
      (∀ e' ∈ evs, e' ≠ WebSocketClient.Reconnect.WEvent.callerConnect) →
      (WebSocketClient.Reconnect.run cfg
          (WebSocketClient.Reconnect.step cfg s e).1 evs).2 = [] := by
  have h := step_maxReached cfg s e hm
  exact ⟨h.1, fun evs hn => run_of_gaveUp cfg evs _ h.2 hn⟩

/-- C7 witness: with max = 3 and the retry counter exhausted, the closing
socket produces exactly one `maxReconnectAttemptsReached`, and a subsequent
event sequence without an explicit `connect()` produces no output at all. -/
theorem c7_max_reconnect_witness :
    (WebSocketClient.Reconnect.WOut.outMaxReached ∈
      (WebSocketClient.Reconnect.step c7Cfg c7S
        WebSocketClient.Reconnect.WEvent.closeEv).2) ∧
    ((WebSocketClient.Reconnect.step c7Cfg c7S
        WebSocketClient.Reconnect.WEvent.closeEv).2 =
      [WebSocketClient.Reconnect.WOut.outDisconnected,
       WebSocketClient.Reconnect.WOut.outMaxReached] ∧
     (WebSocketClient.Reconnect.run c7Cfg
        (WebSocketClient.Reconnect.step c7Cfg c7S
          WebSocketClient.Reconnect.WEvent.closeEv).1
        [WebSocketClient.Reconnect.WEvent.timerFire,
         WebSocketClient.Reconnect.WEvent.closeEv,
         WebSocketClient.Reconnect.WEvent.openOk,
         WebSocketClient.Reconnect.WEvent.callerDisconnect]).2 = []) :=
  ⟨by decide,
   ⟨(c7_max_reconnect_confirmed c7Cfg c7S
       WebSocketClient.Reconnect.WEvent.closeEv (by decide)).1,
    (c7_max_reconnect_confirmed c7Cfg c7S
       WebSocketClient.Reconnect.WEvent.closeEv (by decide)).2 _ (by decide)⟩⟩

/-- C8 counterexample: with source `"A"` first seen before source `"B"` but
carrying the lower top relevance score, the groups come back ordered
`["B", "A"]`, not in the claimed first-seen source order `["A", "B"]`. -/
theorem c8_grouping_cex :
    (CitationHandler.groupCitationsBySource [c8A, c8B]).map
        CitationGroup.source_file_id = ["B", "A"] ∧
    CitationHandler.firstSeenIds [c8A, c8B] = ["A", "B"] ∧
    (["B", "A"] : List String) ≠ ["A", "B"] :=
  ⟨by decide, by decide, by decide⟩

/-- C10: in the `WebSocketClient` constructor, a numeric option explicitly
passed as 0 is falsy under `||` and is replaced by the built-in default —
`maxReconnectAttempts: 0` becomes 5, `reconnectInterval: 0` becomes 3000,
`pingInterval: 0` becomes 30000 — and consequently no caller can obtain a
zero value for any of these three settings. -/
theorem c10_zero_config_replaced_by_default
    (c : WebSocketClient.Config.WebSocketConfig) :
    (WebSocketClient.Config.mkClientConfig
        { c with maxReconnectAttempts := some 0 }).maxReconnectAttempts = 5 ∧
    (WebSocketClient.Config.mkClientConfig
        { c with reconnectInterval := some 0 }).reconnectInterval = 3000 ∧
    (WebSocketClient.Config.mkClientConfig
        { c with pingInterval := some 0 }).pingInterval = 30000 ∧
    (WebSocketClient.Config.mkClientConfig c).maxReconnectAttempts ≠ 0 ∧
    (WebSocketClient.Config.mkClientConfig c).reconnectInterval ≠ 0 ∧
    (WebSocketClient.Config.mkClientConfig c).pingInterval ≠ 0 := by
  refine ⟨rfl, rfl, rfl, ?_, ?_, ?_⟩ <;>
    · simp only [WebSocketClient.Config.mkClientConfig, WebSocketClient.Config.jsOrNat]
      cases' h : c.maxReconnectAttempts with n <;>
        cases' h2 : c.reconnectInterval with n2 <;>
        cases' h3 : c.pingInterval with n3 <;>
      simp [WebSocketClient.Config.jsOrNat] <;> split <;> simp_all

